import Mathlib

/-!
Verification of the gamification / notification / store-reconciliation core of
the kosovari civic-issue-reporting client.

The definitions below are a shallow embedding of the TypeScript source:

* `src/lib/services/auth.ts` — XP ledger (`calculateLevel`, `getXPToNextLevel`),
  the module-level notification bus (`levelUpListeners` / `xpChangeListeners`,
  `subscribeToLevelUp`, `notifyLevelUp`, `notifyXPChange`), the `signUp` insert
  record, and `updateUserXP`.
* `src/store/issues.ts` — `fetchIssues` and `updateIssueStatus` of the Zustand
  issue store.
* `src/components/LikeButton.tsx` and `src/components/IssueDetailModal.tsx` —
  the two `handleLike` implementations.

JavaScript numbers are modelled as `Int` (all the arithmetic involved is
integer arithmetic); `Math.floor (x / 50)` on an integer `x` is `Int.fdiv x 50`.
External service calls (Supabase) are modelled as oracle parameters carrying
the success-or-error outcome of each round trip, so every function is a pure
state transformer from (local state, oracle outcomes) to (local state, emitted
events / requests, thrown error).
-/

namespace Kosovari

/-! ## XP ledger (auth.ts lines 46-56) -/

/-- `calculateLevel(xp) = Math.floor(xp / 50) + 1` (auth.ts line 47). -/
def calculateLevel (xp : Int) : Int :=
  Int.fdiv xp 50 + 1

/-- `getXPToNextLevel` (auth.ts lines 52-56):
`nextLevel = calculateLevel(xp) + 1; nextLevelXP = (nextLevel - 1) * 50;
return nextLevelXP - xp`. -/
def getXPToNextLevel (xp : Int) : Int :=
  let nextLevel := calculateLevel xp + 1
  let nextLevelXP := (nextLevel - 1) * 50
  nextLevelXP - xp

theorem calculateLevel_eq (xp : Int) :
    calculateLevel xp = xp / 50 + 1 := by
  unfold calculateLevel
  rw [Int.fdiv_eq_ediv xp (by norm_num)]

theorem getXPToNextLevel_eq (xp : Int) :
    getXPToNextLevel xp = 50 - xp % 50 := by
  unfold getXPToNextLevel
  rw [calculateLevel_eq xp]
  have := Int.ediv_add_emod xp 50
  simp only []
  omega

/-- C4 counterexample: the claim says `getXPToNextLevel xp = 0` iff `xp` is an
exact multiple of 50.  At `xp = 50` (a multiple of 50) the code returns 50,
not 0, so the "if" direction fails at a concrete input. -/
theorem getXPToNextLevel_claim_fails_at_50 :
    (50 : Int) % 50 = 0 ∧ getXPToNextLevel 50 ≠ 0 := by
  constructor
  · decide
  · show (let nextLevel := calculateLevel 50 + 1
          let nextLevelXP := (nextLevel - 1) * 50
          nextLevelXP - 50) ≠ 0
    decide

/-- C4 (amended): for every non-negative `xp`, `getXPToNextLevel xp` lies in
`[1, 50]` — in particular it is never negative and never 0 — and it equals the
full gap 50 exactly when `xp` is an exact multiple of 50. -/
theorem getXPToNextLevel_range (xp : Int) (_h : 0 ≤ xp) :
    0 ≤ getXPToNextLevel xp ∧ 1 ≤ getXPToNextLevel xp ∧ getXPToNextLevel xp ≤ 50 ∧
      (getXPToNextLevel xp = 50 ↔ xp % 50 = 0) := by
  rw [getXPToNextLevel_eq xp]
  have h1 : 0 ≤ xp % 50 := Int.emod_nonneg xp (by norm_num)
  have h2 : xp % 50 < 50 := Int.emod_lt_of_pos xp (by norm_num)
  omega

/-- Witness for `getXPToNextLevel_range` at `xp = 70`. -/
theorem getXPToNextLevel_range_witness :
    0 ≤ (70 : Int) ∧ (0 ≤ getXPToNextLevel 70 ∧ 1 ≤ getXPToNextLevel 70 ∧
      getXPToNextLevel 70 ≤ 50 ∧ (getXPToNextLevel 70 = 50 ↔ (70 : Int) % 50 = 0)) :=
  ⟨by decide, getXPToNextLevel_range 70 (by decide)⟩

/-! ## Session/identity store (auth.ts) -/

/-- `roli: 'citizen' | 'institution' | 'admin'` (auth.ts line 12). -/
inductive Role where
  | citizen
  | institution
  | admin
  deriving DecidableEq, Repr

/-- The locally cached identity (auth.ts `User`, lines 8-18); fields not
touched by the XP path (auth id, profile picture, creation date) are elided. -/
structure User where
  perdorues_id : Nat
  emri : String
  email : String
  roli : Role
  leveli : Int
  pike_eksperience : Int
  deriving DecidableEq, Repr

/-- The row `signUp` inserts into the `perdoruesit` table (auth.ts lines
102-116): `leveli: 0, pike_eksperience: 0` are hard-coded. -/
structure SignUpInsert where
  emri : String
  email : String
  roli : Role
  leveli : Int
  pike_eksperience : Int
  deriving DecidableEq, Repr

def signUpInsertRow (emri email : String) (roli : Role) : SignUpInsert :=
  { emri := emri, email := email, roli := roli, leveli := 0, pike_eksperience := 0 }

/-- An event published on one of the two notification channels.  The
motivational quote drawn at publish time is irrelevant to the claims about
when events fire, so the payload here is the numeric part only. -/
inductive Event where
  | levelUp (level : Int)
  | xpChange (xp : Int)
  deriving DecidableEq, Repr

/-- Lookup in the in-memory `Record<number, number>`
`lastCongratulatedLevel` (auth.ts line 59), modelled as an association list. -/
def recordLookup (r : List (Nat × Int)) (k : Nat) : Option Int :=
  (r.find? fun p => p.1 == k).map (·.2)

/-- `lastCongratulatedLevel[userId] = v` on the association list. -/
def recordSet (r : List (Nat × Int)) (k : Nat) (v : Int) : List (Nat × Int) :=
  match r with
  | [] => [(k, v)]
  | p :: rest => if p.1 = k then (k, v) :: rest else p :: recordSet rest k v

/-- The mutable module/store state `updateUserXP` reads and writes: the cached
`user` of the Zustand store and the module-level `lastCongratulatedLevel`
record. -/
structure AuthState where
  user : Option User
  lastCongratulatedLevel : List (Nat × Int)
  deriving Repr

/-- Everything one `updateUserXP` call does: the final local state, the
`(pike_eksperience, leveli)` pair persisted to the database (if the update
round trip was reached and succeeded), the events published, and the error
thrown (if any). -/
structure UpdateOutcome where
  state : AuthState
  write : Option (Int × Int)
  events : List Event
  thrown : Option String
  deriving Repr

/-- `updateUserXP(userId, deltaXP)` (auth.ts lines 290-318).  `fetchRes` is
the outcome of the select round trip (`.ok v` carries the row's
`pike_eksperience`, possibly null); `updateErr` is the error of the update
round trip, if it failed.  Mirrors the source line by line:
fetch error → throw; `currentXP = data?.pike_eksperience || 0`;
`newXP = currentXP + deltaXP`; `newLevel = calculateLevel(newXP)`;
update error → throw; then, only when the target is the signed-in user,
the level-up check against `lastCongratulatedLevel[userId] ?? user.leveli`,
the cache update and the xp-change publish. -/
def updateUserXP (s : AuthState) (userId : Nat) (deltaXP : Int)
    (fetchRes : Except String (Option Int)) (updateErr : Option String) :
    UpdateOutcome :=
  match fetchRes with
  | .error e => { state := s, write := none, events := [], thrown := some e }
  | .ok fetched =>
    let currentXP := fetched.getD 0
    let newXP := currentXP + deltaXP
    let newLevel := calculateLevel newXP
    match updateErr with
    | some e => { state := s, write := none, events := [], thrown := some e }
    | none =>
      match s.user with
      | none =>
        { state := s, write := some (newXP, newLevel), events := [], thrown := none }
      | some u =>
        if u.perdorues_id = userId then
          if (recordLookup s.lastCongratulatedLevel userId).getD u.leveli < newLevel then
            { state :=
                { user := some { u with pike_eksperience := newXP, leveli := newLevel },
                  lastCongratulatedLevel :=
                    recordSet s.lastCongratulatedLevel userId newLevel },
              write := some (newXP, newLevel),
              events := [.levelUp newLevel, .xpChange newXP],
              thrown := none }
          else
            { state :=
                { user := some { u with pike_eksperience := newXP, leveli := newLevel },
                  lastCongratulatedLevel := s.lastCongratulatedLevel },
              write := some (newXP, newLevel),
              events := [.xpChange newXP],
              thrown := none }
        else
          { state := s, write := some (newXP, newLevel), events := [], thrown := none }

/-- The new-XP payloads of the xp-change events in a trace. -/
def xpChanges (evs : List Event) : List Int :=
  evs.filterMap fun e => match e with | .xpChange x => some x | _ => none

/-- The level payloads of the level-up events in a trace. -/
def firedLevels (evs : List Event) : List Int :=
  evs.filterMap fun e => match e with | .levelUp l => some l | _ => none

/-- A concrete signed-in identity used for concrete evaluations. -/
def sampleUser : User :=
  { perdorues_id := 1, emri := "Jane", email := "jane@example.com",
    roli := .citizen, leveli := 1, pike_eksperience := 0 }

/-- A concrete store state: `sampleUser` signed in, no one congratulated yet. -/
def sampleState : AuthState :=
  { user := some sampleUser, lastCongratulatedLevel := [] }

theorem updateUserXP_fetch_err (s : AuthState) (userId : Nat) (deltaXP : Int)
    (e : String) (updateErr : Option String) :
    updateUserXP s userId deltaXP (.error e) updateErr =
      { state := s, write := none, events := [], thrown := some e } := rfl

theorem updateUserXP_update_err (s : AuthState) (userId : Nat) (deltaXP : Int)
    (fetched : Option Int) (e : String) :
    updateUserXP s userId deltaXP (.ok fetched) (some e) =
      { state := s, write := none, events := [], thrown := some e } := rfl

theorem updateUserXP_write_eq (s : AuthState) (userId : Nat) (deltaXP : Int)
    (fetched : Option Int) :
    (updateUserXP s userId deltaXP (.ok fetched) none).write =
      some (fetched.getD 0 + deltaXP, calculateLevel (fetched.getD 0 + deltaXP)) := by
  unfold updateUserXP
  cases hu : s.user with
  | none => simp
  | some u =>
    by_cases hid : u.perdorues_id = userId
    · simp only [hid, if_true]
      by_cases hlt : (recordLookup s.lastCongratulatedLevel userId).getD u.leveli <
          calculateLevel (fetched.getD 0 + deltaXP)
      · simp [hlt]
      · simp [hlt]
    · simp [hid]

/-- C1 counterexample: the record `signUp` writes has `leveli = 0` and
`pike_eksperience = 0`, but `calculateLevel 0 = 1`, so the stored level is
not `floor(xp / 50) + 1` of the stored XP at registration. -/
theorem signUp_write_violates_level_invariant :
    (signUpInsertRow "Jane" "jane@example.com" .citizen).leveli ≠
      calculateLevel (signUpInsertRow "Jane" "jane@example.com" .citizen).pike_eksperience := by
  decide

/-- C1 (amended): every database write performed by `updateUserXP` keeps
`leveli = calculateLevel pike_eksperience`; the registration insert is the
one write that does not (it stores level 0 with 0 XP). -/
theorem updateUserXP_write_keeps_level_invariant (s : AuthState) (userId : Nat)
    (deltaXP : Int) (fetchRes : Except String (Option Int)) (updateErr : Option String)
    (xp lvl : Int)
    (h : (updateUserXP s userId deltaXP fetchRes updateErr).write = some (xp, lvl)) :
    lvl = calculateLevel xp := by
  cases fetchRes with
  | error e => rw [updateUserXP_fetch_err] at h; simp at h
  | ok fetched =>
    cases updateErr with
    | some e => rw [updateUserXP_update_err] at h; simp at h
    | none =>
      rw [updateUserXP_write_eq] at h
      simp only [Option.some.injEq, Prod.mk.injEq] at h
      obtain ⟨h1, h2⟩ := h
      rw [← h1, ← h2]

/-- Witness for `updateUserXP_write_keeps_level_invariant`: a successful award
of 10 XP to `sampleUser` writes `(10, 1)` and `1 = calculateLevel 10`. -/
theorem updateUserXP_write_keeps_level_invariant_witness :
    (1 : Int) = calculateLevel 10 :=
  updateUserXP_write_keeps_level_invariant sampleState 1 10 (.ok (some 0)) none 10 1 (by decide)

/-- C3 counterexample: with `sampleUser` (id 1) signed in, a successful
`updateUserXP` call targeting identity 2 throws nothing yet publishes no
xp-change event at all — so "every successful call publishes exactly one
xp-change event for any target identity" fails. -/
theorem updateUserXP_xpChange_missing_for_other_target :
    (updateUserXP sampleState 2 10 (.ok (some 0)) none).thrown = none ∧
      xpChanges (updateUserXP sampleState 2 10 (.ok (some 0)) none).events = [] := by
  constructor <;> decide

/-- C3 (amended): a successful `updateUserXP` call publishes exactly one
xp-change event, carrying the new XP total, when the target is the
currently-signed-in identity (whether or not a level-up also fired), and no
event at all otherwise (other target, or nobody signed in). -/
theorem updateUserXP_xpChange_events (s : AuthState) (userId : Nat) (deltaXP : Int)
    (fetched : Option Int) :
    xpChanges (updateUserXP s userId deltaXP (.ok fetched) none).events =
      (match s.user with
       | some u => if u.perdorues_id = userId then [fetched.getD 0 + deltaXP] else []
       | none => []) := by
  unfold updateUserXP
  cases hu : s.user with
  | none => simp [xpChanges]
  | some u =>
    by_cases hid : u.perdorues_id = userId
    · simp only [hid, if_true]
      by_cases hlt : (recordLookup s.lastCongratulatedLevel userId).getD u.leveli <
          calculateLevel (fetched.getD 0 + deltaXP)
      · simp [hlt, xpChanges]
      · simp [hlt, xpChanges]
    · simp [hid, xpChanges]

/-- C5: if the fetch round trip fails, or the persist round trip fails, the
error is surfaced to the caller (`thrown`), nothing is written, no event is
published on either channel, and the local state — cached identity and
last-congratulated mark — is exactly the state before the call. -/
theorem updateUserXP_failure_leaves_state_untouched (s : AuthState) (userId : Nat)
    (deltaXP : Int) :
    (∀ e updateErr, updateUserXP s userId deltaXP (.error e) updateErr =
      { state := s, write := none, events := [], thrown := some e }) ∧
    (∀ fetched e, updateUserXP s userId deltaXP (.ok fetched) (some e) =
      { state := s, write := none, events := [], thrown := some e }) := by
  constructor
  · intro e updateErr; rfl
  · intro fetched e; rfl

/-! ### Sequences of successful awards (claim C2) -/

/-- One successful `updateUserXP` award against the live database: the fetch
round trip returns the current stored XP `dbXP`, the persist round trip
succeeds, and afterwards the database holds `dbXP + deltaXP`. -/
def awardOk (s : AuthState) (dbXP : Int) (userId : Nat) (deltaXP : Int) :
    (AuthState × Int) × List Event :=
  let o := updateUserXP s userId deltaXP (.ok (some dbXP)) none
  ((o.state, dbXP + deltaXP), o.events)

/-- A sequence of successful awards within one session, threading the local
state and the database XP, and concatenating the published events. -/
def runAwards (s : AuthState) (dbXP : Int) (userId : Nat) :
    List Int → (AuthState × Int) × List Event
  | [] => ((s, dbXP), [])
  | d :: ds =>
    ((runAwards (awardOk s dbXP userId d).1.1 (awardOk s dbXP userId d).1.2 userId ds).1,
     (awardOk s dbXP userId d).2 ++
       (runAwards (awardOk s dbXP userId d).1.1 (awardOk s dbXP userId d).1.2 userId ds).2)

theorem recordLookup_cons (p : Nat × Int) (rest : List (Nat × Int)) (k : Nat) :
    recordLookup (p :: rest) k = if p.1 == k then some p.2 else recordLookup rest k := by
  unfold recordLookup
  by_cases h : p.1 == k
  · simp [List.find?, h]
  · simp [List.find?, h]

theorem recordLookup_set (r : List (Nat × Int)) (k : Nat) (v : Int) :
    recordLookup (recordSet r k v) k = some v := by
  induction r with
  | nil => simp [recordSet, recordLookup, List.find?]
  | cons p rest ih =>
    by_cases h : p.1 = k
    · simp [recordSet, h, recordLookup_cons]
    · rw [recordSet]
      simp only [h, if_false]
      rw [recordLookup_cons]
      simp [h, ih]

theorem firedLevels_append (a b : List Event) :
    firedLevels (a ++ b) = firedLevels a ++ firedLevels b := by
  simp [firedLevels]

/-- Full characterization of one successful award targeting the signed-in
identity: level-up fires exactly when the new level exceeds
`lastCongratulatedLevel[userId] ?? user.leveli`, and then the mark is raised
to the new level. -/
theorem awardOk_spec (s : AuthState) (u : User) (dbXP : Int) (userId : Nat) (d : Int)
    (hu : s.user = some u) (hid : u.perdorues_id = userId) :
    awardOk s dbXP userId d =
      if (recordLookup s.lastCongratulatedLevel userId).getD u.leveli <
          calculateLevel (dbXP + d) then
        ((⟨some { u with pike_eksperience := dbXP + d, leveli := calculateLevel (dbXP + d) },
           recordSet s.lastCongratulatedLevel userId (calculateLevel (dbXP + d))⟩, dbXP + d),
         [.levelUp (calculateLevel (dbXP + d)), .xpChange (dbXP + d)])
      else
        ((⟨some { u with pike_eksperience := dbXP + d, leveli := calculateLevel (dbXP + d) },
           s.lastCongratulatedLevel⟩, dbXP + d),
         [.xpChange (dbXP + d)]) := by
  unfold awardOk updateUserXP
  simp only [hu, hid, Option.getD_some]
  by_cases hlt : (recordLookup s.lastCongratulatedLevel userId).getD u.leveli <
      calculateLevel (dbXP + d)
  · simp [hlt]
  · simp [hlt]

/-- The high-water-mark invariant carried through a run: if the mark for
`userId` is unset, no level-up has fired yet; if set to `M`, every fired
level is at most `M`. -/
def markInv (s : AuthState) (userId : Nat) (F : List Int) : Prop :=
  match recordLookup s.lastCongratulatedLevel userId with
  | none => F = []
  | some M => ∀ l ∈ F, l ≤ M

theorem runAwards_fired_pairwise (userId : Nat) :
    ∀ (ds : List Int) (s : AuthState) (u : User) (dbXP : Int) (F : List Int),
      s.user = some u → u.perdorues_id = userId → markInv s userId F →
      F.Pairwise (· < ·) →
      (F ++ firedLevels (runAwards s dbXP userId ds).2).Pairwise (· < ·) := by
  intro ds
  induction ds with
  | nil =>
    intro s u dbXP F hu hid hinv hpw
    simpa [runAwards, firedLevels] using hpw
  | cons d ds ih =>
    intro s u dbXP F hu hid hinv hpw
    rw [runAwards, awardOk_spec s u dbXP userId d hu hid]
    by_cases hlt : (recordLookup s.lastCongratulatedLevel userId).getD u.leveli <
        calculateLevel (dbXP + d)
    · rw [if_pos hlt]
      simp only [firedLevels_append]
      have hFlt : ∀ l ∈ F, l < calculateLevel (dbXP + d) := by
        intro l hl
        unfold markInv at hinv
        cases hm : recordLookup s.lastCongratulatedLevel userId with
        | none => rw [hm] at hinv; simp [hinv] at hl
        | some M =>
          rw [hm] at hinv
          have := hinv l hl
          rw [hm] at hlt
          simp only [Option.getD_some] at hlt
          omega
      have step := ih
        ⟨some { u with pike_eksperience := dbXP + d, leveli := calculateLevel (dbXP + d) },
         recordSet s.lastCongratulatedLevel userId (calculateLevel (dbXP + d))⟩
        { u with pike_eksperience := dbXP + d, leveli := calculateLevel (dbXP + d) }
        (dbXP + d) (F ++ [calculateLevel (dbXP + d)]) rfl hid
        (by
          unfold markInv
          rw [recordLookup_set]
          intro l hl
          rcases List.mem_append.mp hl with h | h
          · exact le_of_lt (hFlt l h)
          · simp at h; omega)
        (by
          rw [List.pairwise_append]
          refine ⟨hpw, List.pairwise_singleton _ _, ?_⟩
          intro a ha b hb
          simp at hb
          subst hb
          exact hFlt a ha)
      have : firedLevels [Event.levelUp (calculateLevel (dbXP + d)),
          Event.xpChange (dbXP + d)] = [calculateLevel (dbXP + d)] := by
        simp [firedLevels]
      rw [this]
      simpa [List.append_assoc] using step
    · rw [if_neg hlt]
      simp only [firedLevels_append]
      have hfe : firedLevels [Event.xpChange (dbXP + d)] = [] := by simp [firedLevels]
      rw [hfe]
      have step := ih
        ⟨some { u with pike_eksperience := dbXP + d, leveli := calculateLevel (dbXP + d) },
         s.lastCongratulatedLevel⟩
        { u with pike_eksperience := dbXP + d, leveli := calculateLevel (dbXP + d) }
        (dbXP + d) F rfl hid (by unfold markInv at hinv ⊢; exact hinv) hpw
      simpa using step

/-- C2: within one session, for any sequence of successful awards targeting
the signed-in identity, the levels carried by the published level-up events
are strictly increasing (so each level fires at most once); and a single
award publishes a level-up exactly when the newly computed level exceeds
`lastCongratulatedLevel[userId] ?? user.leveli`, and then exactly one, for
the final new level (a multi-level jump fires once, for the last level). -/
theorem updateUserXP_levelUp_once_per_level (s : AuthState) (u : User) (userId : Nat)
    (dbXP : Int) (deltas : List Int)
    (hu : s.user = some u) (hid : u.perdorues_id = userId) :
    (firedLevels (runAwards s dbXP userId deltas).2).Pairwise (· < ·) ∧
    (∀ d : Int,
      firedLevels (awardOk s dbXP userId d).2 =
        if (recordLookup s.lastCongratulatedLevel userId).getD u.leveli <
            calculateLevel (dbXP + d)
        then [calculateLevel (dbXP + d)] else []) := by
  constructor
  · have h := runAwards_fired_pairwise userId deltas s u dbXP [] hu hid
      (by unfold markInv; cases hm : recordLookup s.lastCongratulatedLevel userId <;> simp)
      (List.Pairwise.nil)
    simpa using h
  · intro d
    rw [awardOk_spec s u dbXP userId d hu hid]
    by_cases hlt : (recordLookup s.lastCongratulatedLevel userId).getD u.leveli <
        calculateLevel (dbXP + d)
    · rw [if_pos hlt, if_pos hlt]; simp [firedLevels]
    · rw [if_neg hlt, if_neg hlt]; simp [firedLevels]

/-- Witness for `updateUserXP_levelUp_once_per_level`: a concrete session
(award +60 then +0 then +200 starting from 0 XP) fires levels 2 then 6. -/
theorem updateUserXP_levelUp_once_per_level_witness :
    (firedLevels (runAwards sampleState 0 1 [60, 0, 200]).2).Pairwise (· < ·) ∧
      firedLevels (awardOk sampleState 0 1 60).2 =
        (if (recordLookup sampleState.lastCongratulatedLevel 1).getD sampleUser.leveli <
            calculateLevel (0 + 60)
         then [calculateLevel (0 + 60)] else []) :=
  ⟨(updateUserXP_levelUp_once_per_level sampleState sampleUser 1 0 [60, 0, 200] rfl rfl).1,
   (updateUserXP_levelUp_once_per_level sampleState sampleUser 1 0 [60, 0, 200] rfl rfl).2 60⟩

/-! ## Notification bus (auth.ts lines 58-89)

`notifyLevelUp` / `notifyXPChange` run `for (const listener of listeners)
listener(payload, quote)` over the module-level listener array, with no
try/catch around the call.  A JavaScript `for...of` over an array reads the
live array each step, and `subscribeToLevelUp` pushes onto that same array,
so a listener subscribed during delivery extends the iteration; a thrown
exception aborts the loop and propagates.  The loop is modelled as a queue:
`done` is the already-visited prefix of the array, `pending` the rest; a
listener that subscribes appends the new listener to the end of the live
array, i.e. to `pending`. -/

/-- What a listener's callback does when invoked, beyond receiving the
payload: return normally, throw, or subscribe a fresh listener (with
identity `j`, itself well-behaved) to the same channel mid-delivery. -/
inductive LBehavior where
  | ok : LBehavior
  | throws : LBehavior
  | subscribes (j : Nat) : LBehavior
  deriving DecidableEq, Repr

/-- A registered listener: an identity used to track deliveries, plus its
behavior. -/
abbrev Listener := Nat × LBehavior

/-- Outcome of one publish: the listener array object as it stands after the
loop (mid-delivery pushes included), the invocation log — one entry
`(listener id, numeric payload, quote)` per callback invocation, in call
order — and whether a listener's exception escaped the loop. -/
structure DeliverResult where
  arr : List Listener
  log : List (Nat × Int × String)
  thrown : Bool
  deriving DecidableEq, Repr

/-- The identities of the listeners that a delivery starting from this
pending list would subscribe mid-flight (in order). -/
def subTargets (arr : List Listener) : List Nat :=
  arr.filterMap fun p => match p.2 with | .subscribes j => some j | _ => none

/-- The `for (const listener of listeners)` loop of `notifyLevelUp` /
`notifyXPChange` (auth.ts lines 79-81 and 86-88). -/
def deliverFrom (level : Int) (quote : String) :
    List Listener → List Listener → List (Nat × Int × String) → DeliverResult
  | done, [], log => ⟨done, log, false⟩
  | done, (i, .ok) :: rest, log =>
    deliverFrom level quote (done ++ [(i, .ok)]) rest (log ++ [(i, level, quote)])
  | done, (i, .throws) :: rest, log =>
    ⟨done ++ (i, .throws) :: rest, log, true⟩
  | done, (i, .subscribes j) :: rest, log =>
    deliverFrom level quote (done ++ [(i, .subscribes j)]) (rest ++ [(j, .ok)])
      (log ++ [(i, level, quote)])
  termination_by _ pending _ => pending.length + (subTargets pending).length
  decreasing_by
  · simp [subTargets]
  · simp [subTargets]

/-- `notifyLevelUp(level)` (auth.ts lines 77-82); the quote drawn by
`getRandomQuote()` at publish time is an oracle parameter. -/
def notifyLevelUp (level : Int) (quote : String) (listeners : List Listener) :
    DeliverResult :=
  deliverFrom level quote [] listeners []

/-- `notifyXPChange(xp)` (auth.ts lines 84-89). -/
def notifyXPChange (xp : Int) (quote : String) (listeners : List Listener) :
    DeliverResult :=
  deliverFrom xp quote [] listeners []

/-- `subscribeToLevelUp` / `subscribeToXPChange` push onto the live array
(auth.ts lines 63-75). -/
def subscribeToLevelUp (listeners : List Listener) (l : Listener) : List Listener :=
  listeners ++ [l]

theorem deliverFrom_no_throw (level : Int) (quote : String) :
    ∀ (done pending : List Listener) (log : List (Nat × Int × String)),
      (∀ p ∈ pending, p.2 ≠ LBehavior.throws) →
      (deliverFrom level quote done pending log).log =
        log ++ pending.map (fun p => (p.1, level, quote)) ++
          (subTargets pending).map (fun j => (j, level, quote)) ∧
      (deliverFrom level quote done pending log).thrown = false := by
  intro done pending log
  induction done, pending, log using deliverFrom.induct level quote with
  | case1 done log =>
    intro _
    simp [deliverFrom, subTargets]
  | case2 done i rest log ih =>
    intro h
    rw [deliverFrom]
    have h' : ∀ p ∈ rest, p.2 ≠ LBehavior.throws := fun p hp => h p (List.mem_cons_of_mem _ hp)
    obtain ⟨h1, h2⟩ := ih h'
    refine ⟨?_, h2⟩
    rw [h1]
    simp [subTargets]
  | case3 done i rest log =>
    intro h
    exact absurd rfl (h (i, .throws) (List.mem_cons_self _ _))
  | case4 done i j rest log ih =>
    intro h
    rw [deliverFrom]
    have h' : ∀ p ∈ rest ++ [(j, LBehavior.ok)], p.2 ≠ LBehavior.throws := by
      intro p hp
      rcases List.mem_append.mp hp with hp | hp
      · exact h p (List.mem_cons_of_mem _ hp)
      · simp at hp; subst hp; simp
    obtain ⟨h1, h2⟩ := ih h'
    refine ⟨?_, h2⟩
    rw [h1]
    simp [subTargets, List.filterMap_append]

/-- C6 counterexample: listener 0 subscribes listener 1 during delivery;
listener 1 nevertheless receives the in-flight event (the loop iterates the
live array, not a snapshot). -/
theorem notifyLevelUp_midflight_subscriber_receives :
    (notifyLevelUp 2 "Keep going!" [(0, .subscribes 1)]).log =
      [(0, 2, "Keep going!"), (1, 2, "Keep going!")] := by
  simp [notifyLevelUp, deliverFrom]

/-- C6 (amended): provided no listener throws, publishing on a channel
synchronously invokes every listener registered at publish time exactly once
each, in registration order, passing the payload — but snapshot semantics
does not hold: every listener subscribed during delivery is also invoked
once with the in-flight event, after the originally registered ones. -/
theorem notify_delivery_order (listeners : List Listener) (level xp : Int)
    (quote : String) (h : ∀ p ∈ listeners, p.2 ≠ LBehavior.throws) :
    ((notifyLevelUp level quote listeners).log =
        listeners.map (fun p => (p.1, level, quote)) ++
          (subTargets listeners).map (fun j => (j, level, quote)) ∧
      (notifyLevelUp level quote listeners).thrown = false) ∧
    ((notifyXPChange xp quote listeners).log =
        listeners.map (fun p => (p.1, xp, quote)) ++
          (subTargets listeners).map (fun j => (j, xp, quote)) ∧
      (notifyXPChange xp quote listeners).thrown = false) := by
  constructor
  · have := deliverFrom_no_throw level quote [] listeners [] h
    simpa [notifyLevelUp] using this
  · have := deliverFrom_no_throw xp quote [] listeners [] h
    simpa [notifyXPChange] using this

/-- Witness for `notify_delivery_order`: two registered listeners, the second
of which subscribes a third mid-delivery. -/
theorem notify_delivery_order_witness :
    (∀ p ∈ [((0 : Nat), LBehavior.ok), (1, LBehavior.subscribes 2)],
        p.2 ≠ LBehavior.throws) ∧
    (((notifyLevelUp 3 "q" [(0, .ok), (1, .subscribes 2)]).log =
        [((0 : Nat), LBehavior.ok), (1, LBehavior.subscribes 2)].map
          (fun p => (p.1, (3 : Int), "q")) ++
          (subTargets [(0, .ok), (1, .subscribes 2)]).map (fun j => (j, (3 : Int), "q")) ∧
      (notifyLevelUp 3 "q" [(0, .ok), (1, .subscribes 2)]).thrown = false) ∧
    ((notifyXPChange 7 "q" [(0, .ok), (1, .subscribes 2)]).log =
        [((0 : Nat), LBehavior.ok), (1, LBehavior.subscribes 2)].map
          (fun p => (p.1, (7 : Int), "q")) ++
          (subTargets [(0, .ok), (1, .subscribes 2)]).map (fun j => (j, (7 : Int), "q")) ∧
      (notifyXPChange 7 "q" [(0, .ok), (1, .subscribes 2)]).thrown = false)) :=
  ⟨by decide,
   notify_delivery_order [(0, .ok), (1, .subscribes 2)] 3 7 "q" (by decide)⟩

theorem deliverFrom_throw_aborts (level : Int) (quote : String) :
    ∀ (pre : List Listener), (∀ p ∈ pre, p.2 ≠ LBehavior.throws) →
      ∀ (done : List Listener) (log : List (Nat × Int × String)) (i : Nat)
        (post : List Listener),
      (deliverFrom level quote done (pre ++ (i, LBehavior.throws) :: post) log).log =
        log ++ pre.map (fun p => (p.1, level, quote)) ∧
      (deliverFrom level quote done (pre ++ (i, LBehavior.throws) :: post) log).thrown
        = true := by
  intro pre
  induction pre with
  | nil =>
    intro _ done log i post
    simp [deliverFrom]
  | cons p pre ih =>
    intro h done log i post
    have hp : p.2 ≠ LBehavior.throws := h p (List.mem_cons_self _ _)
    have h' : ∀ q ∈ pre, q.2 ≠ LBehavior.throws := fun q hq => h q (List.mem_cons_of_mem _ hq)
    obtain ⟨pi, pb⟩ := p
    cases pb with
    | ok =>
      rw [List.cons_append, deliverFrom]
      obtain ⟨h1, h2⟩ := ih h' (done ++ [(pi, .ok)]) (log ++ [(pi, level, quote)]) i post
      refine ⟨?_, h2⟩
      rw [h1]
      simp
    | throws => exact absurd rfl hp
    | subscribes j =>
      rw [List.cons_append, deliverFrom]
      have hre : (pre ++ (i, LBehavior.throws) :: post) ++ [(j, LBehavior.ok)] =
          pre ++ (i, LBehavior.throws) :: (post ++ [(j, LBehavior.ok)]) := by
        simp
      rw [hre]
      obtain ⟨h1, h2⟩ := ih h' (done ++ [(pi, .subscribes j)]) (log ++ [(pi, level, quote)])
        i (post ++ [(j, LBehavior.ok)])
      refine ⟨?_, h2⟩
      rw [h1]
      simp

/-- C7 counterexample: listener 0 throws; listener 1, registered after it,
is never invoked for that event — the exception aborts delivery instead of
being isolated per listener. -/
theorem notifyLevelUp_throw_stops_delivery :
    (notifyLevelUp 2 "q" [(0, .throws), (1, .ok)]).log = [] ∧
      (notifyLevelUp 2 "q" [(0, .throws), (1, .ok)]).thrown = true := by
  constructor <;> simp [notifyLevelUp, deliverFrom]

/-- C7 (amended): if a listener throws during delivery, the loop stops at
that listener: exactly the listeners before it (none of which throw) have
been invoked, later listeners are not invoked for that event, and the
exception escapes the publish call. -/
theorem notifyLevelUp_throw_semantics (pre : List Listener) (i : Nat)
    (post : List Listener) (level : Int) (quote : String)
    (h : ∀ p ∈ pre, p.2 ≠ LBehavior.throws) :
    (notifyLevelUp level quote (pre ++ (i, LBehavior.throws) :: post)).log =
      pre.map (fun p => (p.1, level, quote)) ∧
    (notifyLevelUp level quote (pre ++ (i, LBehavior.throws) :: post)).thrown = true := by
  have := deliverFrom_throw_aborts level quote pre h [] [] i post
  simpa [notifyLevelUp] using this

/-- Witness for `notifyLevelUp_throw_semantics`: one well-behaved listener,
then a throwing one, then another; only the first is invoked. -/
theorem notifyLevelUp_throw_semantics_witness :
    (∀ p ∈ [((0 : Nat), LBehavior.ok)], p.2 ≠ LBehavior.throws) ∧
    ((notifyLevelUp 4 "q" ([(0, LBehavior.ok)] ++ (1, LBehavior.throws) :: [(2, LBehavior.ok)])).log =
        [((0 : Nat), LBehavior.ok)].map (fun p => (p.1, (4 : Int), "q")) ∧
      (notifyLevelUp 4 "q"
        ([(0, LBehavior.ok)] ++ (1, LBehavior.throws) :: [(2, LBehavior.ok)])).thrown = true) :=
  ⟨by decide, notifyLevelUp_throw_semantics [(0, .ok)] 1 [(2, .ok)] 4 "q" (by decide)⟩

/-! ## Issue store (store/issues.ts) -/

inductive IssueCategory where
  | traffic
  | environment
  | economy
  | living
  | damage
  | heritage
  deriving DecidableEq, Repr

/-- `'open' | 'in_progress' | 'resolved'`; `open` is a Lean keyword, hence
`open_`. -/
inductive IssueStatus where
  | open_
  | in_progress
  | resolved
  deriving DecidableEq, Repr

/-- A cached issue (store/issues.ts `Issue`, lines 7-18); the WGS84
floating-point coordinates play no role in any claim and are elided. -/
structure Issue where
  id : String
  category : IssueCategory
  description : String
  status : IssueStatus
  user_id : Nat
  created_at : String
  image_url : Option String
  username : Option String
  deriving DecidableEq, Repr

/-- A row as returned by the select with the `perdoruesit:user_id(...)` join
(store/issues.ts lines 44-47): the issue columns plus the optional joined
`(perdorues_id, emri)` pair. -/
structure RawIssue where
  id : String
  category : IssueCategory
  description : String
  status : IssueStatus
  user_id : Nat
  created_at : String
  image_url : Option String
  perdoruesit : Option (Nat × String)
  deriving DecidableEq, Repr

/-- `{ ...issue, username: issue.perdoruesit?.emri || undefined }`
(store/issues.ts lines 51-54); an empty joined name is falsy and becomes
`undefined`. -/
def mapRawIssue (r : RawIssue) : Issue :=
  { id := r.id, category := r.category, description := r.description,
    status := r.status, user_id := r.user_id, created_at := r.created_at,
    image_url := r.image_url,
    username :=
      match r.perdoruesit with
      | some p => if p.2 = "" then none else some p.2
      | none => none }

/-- The slice of the Zustand issue-store state the claims are about
(store/issues.ts lines 33-37). -/
structure IssueStoreState where
  issues : List Issue
  loading : Bool
  error : Option String
  deriving DecidableEq, Repr

/-- `fetchIssues` (store/issues.ts lines 41-60): set loading / clear error,
then either replace the cache wholesale (success) or record
`error.message || 'Failed to fetch issues'` and clear loading, leaving the
cache untouched (failure). -/
def fetchIssues (s : IssueStoreState) (res : Except String (List RawIssue)) :
    IssueStoreState :=
  let s1 := { s with loading := true, error := none }
  match res with
  | .error msg =>
    { s1 with error := some (if msg = "" then "Failed to fetch issues" else msg),
              loading := false }
  | .ok rows =>
    { s1 with issues := rows.map mapRawIssue, loading := false }

/-- C8: a failing `fetchIssues` leaves the previously populated cache exactly
as it was, records an error message, and clears the loading flag. -/
theorem fetchIssues_failure_keeps_cache (s : IssueStoreState) (msg : String) :
    (fetchIssues s (.error msg)).issues = s.issues ∧
    (fetchIssues s (.error msg)).error =
      some (if msg = "" then "Failed to fetch issues" else msg) ∧
    (fetchIssues s (.error msg)).loading = false := by
  refine ⟨rfl, rfl, rfl⟩

/-- A row inserted into the `ndryshimet` audit table
(store/issues.ts lines 136-143); the timestamp is elided. -/
structure AuditRecord where
  issue_id : String
  perdorues_id : Nat
  action : String
  old_value : Option IssueStatus
  new_value : IssueStatus
  deriving DecidableEq, Repr

/-- Everything one `updateIssueStatus` call does: final store state, audit
rows actually inserted, and whether the returned promise rejects. -/
structure StatusUpdateOutcome where
  state : IssueStoreState
  auditWrites : List AuditRecord
  rejected : Bool
  deriving DecidableEq, Repr

/-- `updateIssueStatus` (store/issues.ts lines 113-149).  `authUser` is
`useAuthStore.getState().user`; `updErr` is the error of the issue-update
round trip, if it failed; `auditErr` the error of the audit insert, if that
round trip was reached and failed.  The whole body is inside
`try { ... } catch { set error }` with no rethrow, so the promise never
rejects. -/
def updateIssueStatus (s : IssueStoreState) (authUser : Option User)
    (issueId : String) (newStatus : IssueStatus)
    (updErr : Option String) (auditErr : Option String) : StatusUpdateOutcome :=
  let s1 := { s with loading := true, error := none }
  let oldStatus := (s1.issues.find? fun i => i.id == issueId).map (·.status)
  match updErr with
  | some e =>
    { state := { s1 with
        error := some (if e = "" then "Failed to update issue status" else e),
        loading := false },
      auditWrites := [], rejected := false }
  | none =>
    let s2 := { s1 with
      issues := s1.issues.map fun i =>
        if i.id == issueId then { i with status := newStatus } else i,
      loading := false }
    match authUser with
    | some u =>
      if u.roli = Role.institution then
        match auditErr with
        | some e =>
          { state := { s2 with
              error := some (if e = "" then "Failed to update issue status" else e),
              loading := false },
            auditWrites := [], rejected := false }
        | none =>
          { state := s2,
            auditWrites := [{ issue_id := issueId, perdorues_id := u.perdorues_id,
                              action := "status_update", old_value := oldStatus,
                              new_value := newStatus }],
            rejected := false }
      else { state := s2, auditWrites := [], rejected := false }
    | none => { state := s2, auditWrites := [], rejected := false }

/-- C10: if the server write fails, `updateIssueStatus` resolves normally
(never rejects — in fact no outcome of the call rejects), records the error,
clears loading, and leaves both the cached issues and the audit table
untouched. -/
theorem updateIssueStatus_server_failure_resolves (s : IssueStoreState)
    (authUser : Option User) (issueId : String) (newStatus : IssueStatus)
    (e : String) (auditErr : Option String) :
    ((updateIssueStatus s authUser issueId newStatus (some e) auditErr).rejected = false ∧
     (updateIssueStatus s authUser issueId newStatus (some e) auditErr).state.issues =
       s.issues ∧
     (updateIssueStatus s authUser issueId newStatus (some e) auditErr).state.error =
       some (if e = "" then "Failed to update issue status" else e) ∧
     (updateIssueStatus s authUser issueId newStatus (some e) auditErr).state.loading =
       false ∧
     (updateIssueStatus s authUser issueId newStatus (some e) auditErr).auditWrites = []) ∧
    (∀ updErr auditErr2,
      (updateIssueStatus s authUser issueId newStatus updErr auditErr2).rejected = false) := by
  refine ⟨⟨rfl, rfl, rfl, rfl, rfl⟩, ?_⟩
  intro updErr auditErr2
  unfold updateIssueStatus
  cases updErr with
  | some e2 => rfl
  | none =>
    cases authUser with
    | none => rfl
    | some u =>
      by_cases hr : u.roli = Role.institution
      · simp only [hr, if_true]
        cases auditErr2 <;> rfl
      · simp only [hr, if_false]

/-! ## Like toggling (LikeButton.tsx and IssueDetailModal.tsx) -/

/-- A server round trip issued while toggling a like. -/
inductive LikeReq where
  | toggleRpc (issueId : String) (userId : Nat)
  | deleteLike (issueId : String) (userId : Nat)
  | insertLike (issueId : String) (userId : Nat)
  | countLikes (issueId : String)
  | awardXP (userId : Nat) (delta : Int)
  deriving DecidableEq, Repr

/-- The component-local like state (`likeCount`, `isLiked`, `isLoading`). -/
structure LikeState where
  likeCount : Int
  isLiked : Bool
  isLoading : Bool
  deriving DecidableEq, Repr

/-- One row of the `toggle_like` stored procedure's result:
`{ like_count, liked }` (LikeButton.tsx line 118). -/
structure ToggleRow where
  like_count : Int
  liked : Bool
  deriving DecidableEq, Repr

namespace LikeButton

/-- `handleLike` of LikeButton.tsx (lines 98-130): one `toggle_like` RPC; on
a non-empty result the local count and membership are set from the returned
row; errors are caught (toast) and `isLoading` is cleared in `finally`.
Returns the final state and the list of server requests issued. -/
def handleLike (issueId : String) (st : LikeState) (user : Option Nat)
    (rpcRes : Except String (List ToggleRow)) : LikeState × List LikeReq :=
  match user with
  | none => (st, [])
  | some uid =>
    let st1 := { st with isLoading := true }
    match rpcRes with
    | .error _ => ({ st1 with isLoading := false }, [.toggleRpc issueId uid])
    | .ok [] => ({ st1 with isLoading := false }, [.toggleRpc issueId uid])
    | .ok (row :: _) =>
      ({ likeCount := row.like_count, isLiked := row.liked, isLoading := false },
       [.toggleRpc issueId uid])

end LikeButton

namespace IssueDetailModal

/-- `handleLike` of IssueDetailModal.tsx (lines 181-257): a client-side
check-then-act on the locally tracked `isLiked` — delete the like row if
liked, else insert one and award XP — followed by a separate exact-count
query; membership is set from the client branch, the count from the second
round trip (`count || 0`).  All errors are caught (toast); `isLoading` is
cleared in `finally`. -/
def handleLike (issueId : String) (st : LikeState) (user : Option Nat)
    (mutErr : Option String) (xpErr : Option String)
    (countRes : Except String (Option Int)) : LikeState × List LikeReq :=
  match user with
  | none => (st, [])
  | some uid =>
    let st1 := { st with isLoading := true }
    if st.isLiked then
      match mutErr with
      | some _ => ({ st1 with isLoading := false }, [.deleteLike issueId uid])
      | none =>
        let st2 := { st1 with isLiked := false }
        match countRes with
        | .error _ =>
          ({ st2 with isLoading := false }, [.deleteLike issueId uid, .countLikes issueId])
        | .ok cnt =>
          ({ st2 with likeCount := cnt.getD 0, isLoading := false },
           [.deleteLike issueId uid, .countLikes issueId])
    else
      match mutErr with
      | some _ => ({ st1 with isLoading := false }, [.insertLike issueId uid])
      | none =>
        let st2 := { st1 with isLiked := true }
        match xpErr with
        | some _ =>
          ({ st2 with isLoading := false }, [.insertLike issueId uid, .awardXP uid 5])
        | none =>
          match countRes with
          | .error _ =>
            ({ st2 with isLoading := false },
             [.insertLike issueId uid, .awardXP uid 5, .countLikes issueId])
          | .ok cnt =>
            ({ st2 with likeCount := cnt.getD 0, isLoading := false },
             [.insertLike issueId uid, .awardXP uid 5, .countLikes issueId])

end IssueDetailModal

/-- C9 counterexample: the modal's like toggle, from a not-liked state with
every round trip succeeding and the count query returning 7, issues three
separate requests — insert, XP award, count — none of which is the atomic
`toggle_like` procedure, and sets `isLiked := true` from the client branch
(the server returned only a count, no membership boolean). -/
theorem modal_handleLike_not_atomic_toggle :
    (IssueDetailModal.handleLike "issue-1" ⟨0, false, false⟩ (some 1) none none
        (.ok (some 7))).2 =
      [.insertLike "issue-1" 1, .awardXP 1 5, .countLikes "issue-1"] ∧
    LikeReq.toggleRpc "issue-1" 1 ∉
      (IssueDetailModal.handleLike "issue-1" ⟨0, false, false⟩ (some 1) none none
        (.ok (some 7))).2 ∧
    (IssueDetailModal.handleLike "issue-1" ⟨0, false, false⟩ (some 1) none none
        (.ok (some 7))).1 = ⟨7, true, false⟩ := by
  refine ⟨rfl, by decide, rfl⟩

/-- C9 (amended): `LikeButton.handleLike` does delegate to the single
server-side atomic `toggle_like` procedure — it issues exactly that one
request and sets the local count and membership directly from the returned
row; `IssueDetailModal.handleLike`, however, performs a client-side
check-then-act: from a not-liked state it issues an insert, an XP award and
a separate count query, sets `isLiked := true` client-side and takes the
count from the extra round trip. -/
theorem handleLike_toggle_semantics (issueId : String) (uid : Nat)
    (st : LikeState) (row : ToggleRow) (rest : List ToggleRow)
    (c : Int) (loading : Bool) (cnt : Option Int) :
    LikeButton.handleLike issueId st (some uid) (.ok (row :: rest)) =
      ({ likeCount := row.like_count, isLiked := row.liked, isLoading := false },
       [.toggleRpc issueId uid]) ∧
    IssueDetailModal.handleLike issueId ⟨c, false, loading⟩ (some uid) none none
        (.ok cnt) =
      ({ likeCount := cnt.getD 0, isLiked := true, isLoading := false },
       [.insertLike issueId uid, .awardXP uid 5, .countLikes issueId]) := by
  exact ⟨rfl, rfl⟩

end Kosovari
